import Mathlib

/-!
Verification of the financial-document retrieval and agent subsystem.

This file gives a shallow embedding, in Lean 4, of the core logic of the
repository:

* `src/backend/retrieval/vector_store.py` — `FinancialVectorStore` with
  `add_documents`, `search` (ticker-priority ranking), `save`/`load`;
* `src/backend/retrieval/index_builder.py` — `build_combined_index`;
* `src/backend/retrieval/retrieval_service.py` — `rebuild_indices`;
* `src/backend/agents/query_intent.py` — `parse_intent` / `infer_sources`;
* `src/backend/agents/base_agent.py` — the text-mode ReAct loop
  (`_parse_react_response`, `_process_query_react_text`) and the bounded
  memory handling.

Modelling conventions:

* Floating-point vectors, distances and similarity scores are modelled as
  exact rationals (`ℚ`).  Because the Mathlib field operations on `ℚ` are
  `@[irreducible]` and would block kernel evaluation of concrete examples,
  the arithmetic used inside the embedded code is expressed through
  `Rat.divInt`-based operations (`ratAdd`, `ratSub`, `ratMul`, `ratDiv`),
  which are proved below to agree with the Mathlib operations.
* Python dictionaries with string keys are modelled as association lists
  with first-match lookup and in-place update (`dictGet`, `dictSet`);
  Python dictionaries have unique keys, which this model preserves.
* Python's stable `list.sort(key=..., reverse=True)` is modelled with
  `List.insertionSort`, which is a stable sort; for a total preorder the
  output of any stable sort is uniquely determined, so this is faithful.
* FAISS `IndexFlatL2.search` performs exact (exhaustive) nearest-neighbour
  search returning squared-L2 distances in ascending order; it is modelled
  by sorting all stored vectors by distance (ties broken by insertion
  order, which stable sorting gives for free) and taking the requested
  number of candidates.
* I/O (reading/writing index artifacts, the debug-log block in
  `search`, network calls) is modelled by explicit data passing; the
  debug-log block has no effect on the returned value and is omitted.
-/

namespace VectorRag

/-! ### Kernel-computable rational arithmetic

`Rat.add`, `Rat.sub`, `Rat.mul` and `Rat.inv` are `@[irreducible]` in
Batteries, so concrete values built from them cannot be evaluated by
`decide`.  The operations below compute the same rationals through
`Rat.divInt` (which is reducible); the `*_eq` lemmas certify agreement
with the Mathlib field structure on `ℚ`. -/

def ratAdd (a b : ℚ) : ℚ :=
  Rat.divInt (a.num * (b.den : ℤ) + b.num * (a.den : ℤ)) ((a.den : ℤ) * (b.den : ℤ))

def ratSub (a b : ℚ) : ℚ :=
  Rat.divInt (a.num * (b.den : ℤ) - b.num * (a.den : ℤ)) ((a.den : ℤ) * (b.den : ℤ))

def ratMul (a b : ℚ) : ℚ :=
  Rat.divInt (a.num * b.num) ((a.den : ℤ) * (b.den : ℤ))

def ratDiv (a b : ℚ) : ℚ :=
  Rat.divInt (a.num * (b.den : ℤ)) ((a.den : ℤ) * b.num)

/-! ### Python-style string helpers

`String.toUpper`, `String.toLower` and `String.splitOn` in core Lean go
through well-founded recursion and block kernel evaluation, so the
embedding uses structural char-list versions. -/

/-- `str.upper()`. -/
def strUpper (s : String) : String := String.mk (s.data.map Char.toUpper)

/-- `str.lower()`. -/
def strLower (s : String) : String := String.mk (s.data.map Char.toLower)

/-- Whitespace in the sense of Python's `str.strip()` and of the regex
class `\s`: space, tab, newline, carriage return, vertical tab, form feed. -/
def pyIsSpace (c : Char) : Bool :=
  c = ' ' || c = '\t' || c = '\n' || c = '\r' || c = Char.ofNat 11 || c = Char.ofNat 12

/-- `str.strip()`. -/
def strStrip (s : String) : String :=
  String.mk (((s.data.dropWhile pyIsSpace).reverse.dropWhile pyIsSpace).reverse)

/-- `needle.isPrefixOf hay`, structurally. -/
def listStarts : List Char → List Char → Bool
  | [], _ => true
  | _ :: _, [] => false
  | a :: as, b :: bs => a = b && listStarts as bs

/-- Python's `needle in hay` substring test, structurally on the haystack. -/
def containsSub (needle : List Char) : List Char → Bool
  | [] => listStarts needle []
  | c :: cs => listStarts needle (c :: cs) || containsSub needle cs

/-- `needle in hay` on strings. -/
def strContains (hay needle : String) : Bool := containsSub needle.data hay.data

/-- The apostrophe character, built numerically so that no string literal in
this file needs to contain one. -/
def apos : Char := Char.ofNat 39

/-! ### Python dictionaries as association lists (unique keys) -/

/-- `d.get(k)`: first-match lookup. -/
def dictGet {α : Type} : List (String × α) → String → Option α
  | [], _ => none
  | (k', v) :: rest, k => if k' = k then some v else dictGet rest k

/-- `d.get(k, dflt)`. -/
def dictGetD {α : Type} (m : List (String × α)) (k : String) (dflt : α) : α :=
  (dictGet m k).getD dflt

/-- `d[k] = v`: replace the binding if the key is present, else append. -/
def dictSet {α : Type} : List (String × α) → String → α → List (String × α)
  | [], k, v => [(k, v)]
  | (k', v') :: rest, k, v =>
    if k' = k then (k, v) :: rest else (k', v') :: dictSet rest k v

/-! ### `vector_store.py`: data model -/

/-- One metadata dictionary as stored in `FinancialVectorStore.metadata`.
Only the keys the retrieval logic reads are modelled; `none` stands for an
absent key (`dict.get` returning `None`). -/
structure Meta where
  ticker : Option String
  docType : Option String
  title : Option String
  sectionName : Option String
  text : Option String
deriving DecidableEq, Repr

/-- A search hit: the copied metadata dictionary together with the
`similarity_score` and `distance` keys that `search` adds to it. -/
structure SearchResult where
  md : Meta
  similarity_score : ℚ
  distance : ℚ
deriving DecidableEq, Repr

/-- `FinancialVectorStore`: the FAISS `IndexFlatL2` is the ordered list of
stored vectors (`index.ntotal = vectors.length`), `metadata` the parallel
list of metadata dictionaries, `doc_type_map` the dict from document type
to its list of `[start, end)` ranges. -/
structure FinancialVectorStore where
  dimension : Nat
  vectors : List (List ℚ)
  metadata : List Meta
  doc_type_map : List (String × List (Nat × Nat))
deriving DecidableEq, Repr

/-- `FinancialVectorStore(dimension=d)` with no documents. -/
def emptyStore (d : Nat) : FinancialVectorStore :=
  { dimension := d, vectors := [], metadata := [], doc_type_map := [] }

/-- `add_documents(embeddings, metadata, doc_type)`.

The `embeddings.size == 0` early return tests the *total number of scalar
entries* of the numpy array, i.e. the sum of the row lengths here.  The
dimension check compares the array's second axis with the store dimension;
for a (well-formed, rectangular) numpy array that is the length of every
row.  No check relates `len(embeddings)` to `len(metadata)`. -/
def add_documents (s : FinancialVectorStore) (embeddings : List (List ℚ))
    (metadata : List Meta) (doc_type : String) :
    Except String FinancialVectorStore :=
  if ((embeddings.map (·.length)).sum = 0) then .ok s
  else if embeddings.any (fun v => v.length ≠ s.dimension) then
    .error "Embedding dimension mismatch"
  else
    let start_idx := s.vectors.length
    let vectors := s.vectors ++ embeddings
    let end_idx := vectors.length
    let ranges := dictGetD s.doc_type_map doc_type []
    .ok { s with
            vectors := vectors,
            metadata := s.metadata ++ metadata,
            doc_type_map :=
              dictSet s.doc_type_map doc_type (ranges ++ [(start_idx, end_idx)]) }

/-! ### `vector_store.py`: search -/

/-- Squared L2 distance, as returned by FAISS `IndexFlatL2`. -/
def l2sq (q v : List ℚ) : ℚ :=
  (List.zipWith (fun a b => ratMul (ratSub a b) (ratSub a b)) q v).foldr ratAdd 0

/-- Candidate ordering of FAISS results: ascending distance. -/
def distLE (p q : Nat × ℚ) : Prop := p.2 ≤ q.2

instance : DecidableRel distLE := fun p q => inferInstanceAs (Decidable (p.2 ≤ q.2))

instance : IsTotal (Nat × ℚ) distLE := ⟨fun p q => le_total p.2 q.2⟩

instance : IsTrans (Nat × ℚ) distLE := ⟨fun _ _ _ h h' => le_trans h h'⟩

/-- `index.search(query, m)`: the `m` nearest stored vectors as
`(index, squared distance)` pairs, ascending by distance. -/
def knn (s : FinancialVectorStore) (q : List ℚ) (m : Nat) : List (Nat × ℚ) :=
  (List.insertionSort distLE ((s.vectors.enum).map (fun p => (p.1, l2sq q p.2)))).take m

/-- Python truthiness of the optional `ticker` / `doc_type` string
arguments: `None` and `""` are falsy. -/
def strTruthy : Option String → Bool
  | none => false
  | some t => t ≠ ""

/-- Python truthiness of the optional `min_score` float: `None` and `0.0`
are falsy. -/
def scoreTruthy : Option ℚ → Bool
  | none => false
  | some m => m ≠ 0

/-- `search_k = k * 3 if ticker else k * 2`. -/
def searchKOf (k : Nat) (ticker : Option String) : Nat :=
  if strTruthy ticker then k * 3 else k * 2

/-- The candidate list handed to the filtering loop:
`min(search_k, ntotal)` nearest neighbours. -/
def searchCandidates (s : FinancialVectorStore) (q : List ℚ) (k : Nat)
    (ticker : Option String) : List (Nat × ℚ) :=
  knn s q (min (searchKOf k ticker) s.vectors.length)

/-- One iteration of the candidate loop: the bounds guard on the metadata
list, the `doc_type` filter, the distance→similarity conversion
`1 / (1 + d)` and the `min_score` filter. -/
def candidateResult (s : FinancialVectorStore) (doc_type : Option String)
    (min_score : Option ℚ) (p : Nat × ℚ) : Option SearchResult :=
  match s.metadata.get? p.1 with
  | none => none
  | some md =>
    let distance := p.2
    let similarity_score := ratDiv 1 (ratAdd 1 distance)
    if strTruthy doc_type && (md.docType != doc_type) then none
    else if scoreTruthy min_score && decide (similarity_score < (min_score.getD 0)) then
      none
    else some ⟨md, similarity_score, distance⟩

/-- The surviving candidates, in FAISS (ascending-distance) order. -/
def searchFiltered (s : FinancialVectorStore) (q : List ℚ) (k : Nat)
    (doc_type : Option String) (ticker : Option String) (min_score : Option ℚ) :
    List SearchResult :=
  (searchCandidates s q k ticker).filterMap (candidateResult s doc_type min_score)

/-- `metadata.get('ticker', '').upper() == ticker.upper()`. -/
def matchesTicker (t : String) (md : Meta) : Bool :=
  strUpper (md.ticker.getD "") == strUpper t

/-- Descending-similarity ordering used for
`sort(key=lambda x: x['similarity_score'], reverse=True)`. -/
def simGE (a b : SearchResult) : Prop := b.similarity_score ≤ a.similarity_score

instance : DecidableRel simGE :=
  fun a b => inferInstanceAs (Decidable (b.similarity_score ≤ a.similarity_score))

instance : IsTotal SearchResult simGE := ⟨fun a b => le_total b.similarity_score a.similarity_score⟩

instance : IsTrans SearchResult simGE := ⟨fun _ _ _ h h' => le_trans h' h⟩

/-- `FinancialVectorStore.search(query_embedding, k, doc_type, ticker,
min_score)`.  The debug-log block at the end of the Python function only
performs I/O and does not change the returned list. -/
def search (s : FinancialVectorStore) (q : List ℚ) (k : Nat)
    (doc_type : Option String) (ticker : Option String) (min_score : Option ℚ) :
    List SearchResult :=
  if s.vectors.length = 0 then []
  else
    let results := searchFiltered s q k doc_type ticker min_score
    let parts :=
      if strTruthy ticker then
        results.partition (fun r => matchesTicker (ticker.getD "") r.md)
      else (results, [])
    let ticker_matches := List.insertionSort simGE parts.1
    let other_results := List.insertionSort simGE parts.2
    (if strTruthy ticker then ticker_matches ++ other_results else ticker_matches).take k

/-- Number of stored documents whose metadata carries the given
`doc_type` value. -/
def docsOfKind (s : FinancialVectorStore) (kind : String) : Nat :=
  (s.metadata.filter (fun m => m.docType == some kind)).length

/-- Per-kind document count derived from the range map, as in
`get_stats()['doc_type_counts']`. -/
def doc_type_count (s : FinancialVectorStore) (kind : String) : Nat :=
  ((dictGetD s.doc_type_map kind []).map (fun r => r.2 - r.1)).sum

/-! ### `vector_store.py`: save / load -/

/-- The two co-located artifacts written by `save`: the FAISS index file
(the raw vectors) and the pickle file.  The pickle dictionary's
`doc_type_map` and `dimension` keys are optional because `load` reads them
with `data.get(..., default)`. -/
structure SavedArtifacts where
  index_file : List (List ℚ)
  pkl_metadata : List Meta
  pkl_doc_type_map : Option (List (String × List (Nat × Nat)))
  pkl_dimension : Option Nat
deriving DecidableEq, Repr

/-- `save(path)`: serialize the index and the metadata/range-map pickle. -/
def save (s : FinancialVectorStore) : SavedArtifacts :=
  { index_file := s.vectors
    pkl_metadata := s.metadata
    pkl_doc_type_map := some s.doc_type_map
    pkl_dimension := some s.dimension }

/-- `load(path)` from existing artifacts (the missing-file branch raises
`FileNotFoundError` and leaves no store to reason about). -/
def load (a : SavedArtifacts) : FinancialVectorStore :=
  { dimension := a.pkl_dimension.getD 384
    vectors := a.index_file
    metadata := a.pkl_metadata
    doc_type_map := a.pkl_doc_type_map.getD [] }


/-! ### Range-map invariant (`doc_type_map`) -/

/-- All `[start, end)` ranges recorded in the store, across every document
type. -/
def allRanges (s : FinancialVectorStore) : List (Nat × Nat) :=
  (s.doc_type_map.map (fun p => p.2)).flatten

/-- Two half-open ranges do not overlap. -/
def rangesDisjoint (r r' : Nat × Nat) : Prop := r.2 ≤ r'.1 ∨ r'.2 ≤ r.1

/-- The documented invariant of the kind→range map: every range stays
inside `[0, ntotal)`, ranges are pairwise non-overlapping, and their union
covers exactly the stored indices `[0, ntotal)`. -/
def rangeInvariant (s : FinancialVectorStore) : Prop :=
  (∀ r ∈ allRanges s, r.2 ≤ s.vectors.length) ∧
  (allRanges s).Pairwise rangesDisjoint ∧
  (∀ i : Nat, i < s.vectors.length ↔ ∃ r ∈ allRanges s, r.1 ≤ i ∧ i < r.2)

/-- One `add_documents` call of a replayed workload. -/
structure AddOp where
  embeddings : List (List ℚ)
  metadata : List Meta
  doc_type : String

/-- Whether an `AddOp` is one of the "successful adds" of the claim:
a non-empty batch of vectors of the store dimension with equally many
metadata entries. -/
def AddOp.ok (dim : Nat) (op : AddOp) : Prop :=
  op.embeddings ≠ [] ∧ (∀ v ∈ op.embeddings, v.length = dim) ∧
  op.metadata.length = op.embeddings.length

instance (dim : Nat) (op : AddOp) : Decidable (op.ok dim) := by
  unfold AddOp.ok
  infer_instance

/-- `add_documents`, keeping the previous store when the call raises. -/
def addOrKeep (s : FinancialVectorStore) (op : AddOp) : FinancialVectorStore :=
  match add_documents s op.embeddings op.metadata op.doc_type with
  | .ok s' => s'
  | .error _ => s

/-- Replay a sequence of `add_documents` calls. -/
def applyAdds (s : FinancialVectorStore) (ops : List AddOp) : FinancialVectorStore :=
  ops.foldl addOrKeep s

/-! ### `index_builder.py` / `retrieval_service.py` -/

/-- One source document of a per-kind corpus: its embedding vector and the
metadata row it is indexed with. -/
structure CorpusDoc where
  embedding : List ℚ
  md : Meta
deriving DecidableEq, Repr

/-- The on-disk processed corpora the index builders read.  A `none` field
models a missing source file/directory (the `…exists()` guards). -/
structure CorpusEnv where
  news : Option (List CorpusDoc)
  news_insights : Option (List CorpusDoc)
  filings : Option (List CorpusDoc)
  filings_insights : Option (List CorpusDoc)
  transcripts : Option (List CorpusDoc)
  transcripts_qa : Option (List CorpusDoc)
  transcripts_guidance : Option (List CorpusDoc)

/-- The ticker scoping every per-kind builder applies to its source rows
(`df[df['ticker'].str.upper() == ticker.upper()]` and the equivalent
filename-based guards). -/
def filterByTicker (ticker : Option String) (docs : List CorpusDoc) : List CorpusDoc :=
  if strTruthy ticker then
    docs.filter (fun d => strUpper (d.md.ticker.getD "") == strUpper (ticker.getD ""))
  else docs

/-- Common body of `build_news_index`, `build_filings_index`, … : filter the
source rows, return an empty store when nothing is left, otherwise create a
store of the embedding dimension and `add_documents` everything under this
builder's document type (each builder stamps `doc_type` into the metadata
it emits).  The error branch of `add_documents` is unreachable because the
store dimension is taken from the (rectangular) embedding matrix itself. -/
def build_kind_index (kind : String) (ticker : Option String)
    (docs : List CorpusDoc) : FinancialVectorStore :=
  let docs := filterByTicker ticker docs
  if docs.isEmpty then emptyStore 384
  else
    let dim := docs.head?.elim 0 (fun d => d.embedding.length)
    match add_documents (emptyStore dim) (docs.map (fun d => d.embedding))
        (docs.map (fun d => { d.md with docType := some kind })) kind with
    | .ok s => s
    | .error _ => emptyStore dim

/-- The per-kind sources in the order `build_combined_index` visits them,
paired with the document-type names it uses. -/
def kindSources (env : CorpusEnv) : List (String × Option (List CorpusDoc)) :=
  [("news", env.news),
   ("news_insight", env.news_insights),
   ("filing", env.filings),
   ("filing_insight", env.filings_insights),
   ("transcript", env.transcripts),
   ("transcript_qa", env.transcripts_qa),
   ("transcript_guidance", env.transcripts_guidance)]

/-- The merge step of `build_combined_index` for one per-kind store: if it
is non-empty, append its vectors and metadata to the combined store and set
`doc_type_map[kind] = [(start_idx, ntotal)]`.  (For the first kind, news,
the source writes the literal `[(0, ntotal)]`, which coincides with the
general form because the combined store is empty at that point.) -/
def mergeKind (store : FinancialVectorStore) (kind : String)
    (kstore : FinancialVectorStore) : FinancialVectorStore :=
  if 0 < kstore.vectors.length then
    let start_idx := store.vectors.length
    { store with
        vectors := store.vectors ++ kstore.vectors,
        metadata := store.metadata ++ kstore.metadata,
        doc_type_map :=
          dictSet store.doc_type_map kind
            [(start_idx, store.vectors.length + kstore.vectors.length)] }
  else store

/-- `build_combined_index(config, ticker, doc_types)`: for every document
kind that is requested (`doc_types is None or kind in doc_types`) and whose
source exists, build the per-kind index and merge it into a fresh combined
store. -/
def build_combined_index (env : CorpusEnv) (ticker : Option String)
    (doc_types : Option (List String)) : FinancialVectorStore :=
  (kindSources env).foldl
    (fun store p =>
      if (doc_types.isNone || (doc_types.getD []).contains p.1) && p.2.isSome then
        mergeKind store p.1 (build_kind_index p.1 ticker (p.2.getD []))
      else store)
    (emptyStore 384)

/-- Result of `RetrievalService.rebuild_indices`: the per-kind indices that
were written, and the combined store the service ends up holding. -/
structure RebuildResult where
  rebuilt : List (String × FinancialVectorStore)
  combined : FinancialVectorStore

/-- `rebuild_indices(ticker, doc_types)`: when `doc_types` is provided (and
truthy), rebuild exactly the requested per-kind indices whose sources
exist; then — unconditionally — rebuild the combined index with
`doc_types=None`, i.e. from every available per-kind source. -/
def rebuild_indices (env : CorpusEnv) (ticker : Option String)
    (doc_types : Option (List String)) : RebuildResult :=
  let rebuilt :=
    match doc_types with
    | none => []
    | some kinds =>
      (kindSources env).filterMap (fun p =>
        if kinds.contains p.1 && p.2.isSome then
          some (p.1, build_kind_index p.1 ticker (p.2.getD []))
        else none)
  { rebuilt := rebuilt
    combined := build_combined_index env ticker none }

/-- A per-kind corpus as produced by the (rectangular) embedding pipeline:
every document has a non-empty embedding of the common dimension.  (An
`np.array` of equal-length non-empty rows.) -/
def wellFormedDocs (docs : List CorpusDoc) : Prop :=
  ∀ d ∈ docs, d.embedding ≠ [] ∧
    d.embedding.length = docs.head?.elim 0 (fun d0 => d0.embedding.length)

instance (docs : List CorpusDoc) : Decidable (wellFormedDocs docs) := by
  unfold wellFormedDocs
  infer_instance


/-! ### `query_intent.py` -/

/-- `[A-Z]`. -/
def isUpperAZ (c : Char) : Bool := 'A' ≤ c && c ≤ 'Z'

/-- The regex word class `\\w` (ASCII): letters, digits, underscore.  The
queries and stoplist entries involved are ASCII, so the Unicode extension
of `\\w` is not modelled. -/
def isWordChar (c : Char) : Bool := c.isAlpha || c.isDigit || c = '_'

/-- `re.findall(r"\\b([A-Z]\x7b1,5\x7d)\\b", s)`: the maximal runs of
uppercase letters of length 1–5 whose neighbours (if any) are non-word
characters, in order of appearance.  A run longer than 5 letters, or one
bordered by a letter/digit/underscore, produces no match.

State of the scan: remaining input, whether the character before the
current run is a word character, the current run (reversed), and whether
the current run started at a word boundary. -/
def tickerScanAux : List Char → Bool → List Char → Bool → List String
  | [], _, revRun, startOK =>
    if revRun ≠ [] && startOK && revRun.length ≤ 5 then [String.mk revRun.reverse] else []
  | c :: cs, prevW, revRun, startOK =>
    if isUpperAZ c then
      if revRun.isEmpty then tickerScanAux cs prevW [c] (!prevW)
      else tickerScanAux cs prevW (c :: revRun) startOK
    else
      (if revRun ≠ [] && startOK && revRun.length ≤ 5 && !isWordChar c then
        [String.mk revRun.reverse]
      else []) ++ tickerScanAux cs (isWordChar c) [] false

/-- `TICKER_PATTERN.findall(query)`. -/
def tickerTokens (s : String) : List String := tickerScanAux s.data false [] false

/-- The stoplist of common false positives in `parse_intent`. -/
def tickerStopList : List String :=
  ["AI",
   "US", "USA",
   "Q1", "Q2", "Q3", "Q4",
   "H1", "H2", "FY", "CY", "LY", "PY",
   "EPS", "EBIT", "EBITDA", "EARNINGS",
   "GAAP", "NON", "NON-GAAP",
   "SEC", "ETF", "ETFS", "ADR", "ADRS",
   "K", "10K", "10Q"]

/-- `infer_sources(query)`: keyword buckets over the lowercased query.
Python accumulates a set; only membership is observed, so a list with
possible duplicates is an equivalent model. -/
def infer_sources (query : String) : List String :=
  let q := strLower query
  let sources :=
    (if ["10-k", "10q", "10-q", "filing", "sec", "risk factor", "md&a"].any
        (fun term => strContains q term) then ["filings"] else []) ++
    (if ["call", "transcript", "earnings", "guidance", "qa", "q&a"].any
        (fun term => strContains q term) then ["transcripts"] else []) ++
    (if ["news", "headline", "article", "press"].any
        (fun term => strContains q term) then ["news"] else [])
  if sources.isEmpty then ["news", "filings", "transcripts"] else sources

/-- `IntentResult`. -/
structure IntentResult where
  ticker : Option String
  needs_news : Bool
  needs_filings : Bool
  needs_transcripts : Bool
  raw_ticker_candidates : List String
deriving DecidableEq, Repr

/-- `parse_intent(query, ticker_hint)`. -/
def parse_intent (query : String) (ticker_hint : Option String) : IntentResult :=
  let ticker_candidates :=
    (if strTruthy ticker_hint then [strUpper (ticker_hint.getD "")] else []) ++
      (tickerTokens query).map strUpper
  let ticker₀ :=
    ticker_candidates.find? (fun c => 2 ≤ c.length && !(tickerStopList.contains c))
  let ticker :=
    match ticker₀ with
    | some c => some c
    | none => ticker_candidates.head?
  let sources := infer_sources query
  { ticker := ticker
    needs_news := sources.contains "news"
    needs_filings := sources.contains "filings"
    needs_transcripts := sources.contains "transcripts"
    raw_ticker_candidates := ticker_candidates }


/-! ### `base_agent.py`: the text-mode ReAct loop

The LLM is the spec's external collaborator `Complete(messages) -> text`;
it is modelled as a deterministic function from the accumulated message
list to either a reply or an error payload (`_call_llm` returning a dict
with an `"error"` key).  Tool execution and `json.loads` of the action
input are likewise environment functions. -/

/-- One chat message. -/
structure Message where
  role : String
  content : String
deriving DecidableEq, Repr

/-- One recorded tool invocation (`tool_results` entries). -/
structure ToolCallRec where
  tool : String
  arguments : String
  result : String
deriving DecidableEq, Repr

/-- One trace step of the ReAct loop. -/
structure Step where
  thought : Option String
  action : Option String
  action_input : Option String
  observation : Option String
deriving DecidableEq, Repr

/-- A citation produced by `_extract_sources`. -/
structure Citation where
  sourceType : String
  ticker : Option String
  title : Option String
  score : Option ℚ
  text_preview : Option String
deriving DecidableEq, Repr

/-- The agent response envelope.  Optional keys of the Python dict are
`Option` fields; the `error` key is absent-or-`True`, modelled as `Bool`. -/
structure Envelope where
  answer : String
  sources : List Citation
  tool_calls : List ToolCallRec
  agent : Option String
  error : Bool
  warning : Option String
  trace : Option (List Step)
deriving DecidableEq, Repr

/-- Constructor arguments of `BaseAgent` that the text loop reads. -/
structure AgentConfig where
  name : String
  system_prompt : String
  react_expose_trace : Bool
deriving DecidableEq, Repr

/-- The agent's environment: the LLM, the tool executor, and JSON parsing
of tool arguments (all external collaborators). `result_items` recovers
the structured list behind a serialized tool result, for citation
extraction (`isinstance(result, list)`); `none` models a non-list result. -/
structure AgentEnv where
  llm : List Message → Except String String
  execTool : String → String → String
  parseArgs : String → Except String String
  result_items : String → Option (List SearchResult)

/-- `self._react_system_guidance`. -/
def reactSystemGuidance : String :=
  "Follow a ReAct loop (Thought -> Action -> Observation -> Thought -> Final Answer). " ++
  "Think step-by-step about what information is needed before calling tools. " ++
  "Use tools only when they add value. After each observation, summarize what was learned, " ++
  "decide the next best action, and stop when you have enough evidence to answer."

/-- `self._react_reflection_prompt`. -/
def reactReflectionPrompt : String :=
  "Reflect on the observations above. Decide if another action is needed. " ++
  "If you have enough information, provide a concise final answer with sources."

/-- `self._react_format_prompt` (the apostrophes around `None` and the
braces of the empty JSON object are assembled from character codes). -/
def reactFormatPrompt : String :=
  "Use the exact schema for every step:\n" ++
  "Thought: <your reasoning about what to do next>\n" ++
  "Action: <tool name or " ++ String.mk [apos] ++ "None" ++ String.mk [apos] ++
  " if you can answer now>\n" ++
  "Action Input: <JSON object with arguments when a tool is used; use " ++
  String.mk [Char.ofNat 123, Char.ofNat 125] ++ " when no tool>\n" ++
  "Observation: <leave blank; will be filled after the tool runs>\n" ++
  "Always emit one Action block per turn. Do not include extra text outside this schema."

/-- The nudge sent when the model answers `Action: None` with no
`Final Answer:` marker. -/
def nudgeMessage : String :=
  "You set Action: None but did not provide a Final Answer. " ++
  "Write `Final Answer:` now. If relevant sources were not found, " ++
  "clearly state what is missing and what additional data is needed."

/-- The forced-final-answer system message after the iteration budget is
exhausted. -/
def maxIterForcePrompt : String :=
  "Max tool iterations reached. Provide a `Final Answer:` now using the observations so far. " ++
  "If key documents are missing, explicitly say what is missing and what would be needed."

/-- Scan for the first occurrence of `marker` at a line start (MULTILINE
`^`), returning the text that follows it.  The flag records whether the
current position is a line start. -/
def afterMarker (marker : List Char) : List Char → Bool → Option (List Char)
  | [], _ => none
  | c :: cs, atStart =>
    if atStart && listStarts marker (c :: cs) then some ((c :: cs).drop marker.length)
    else afterMarker marker cs (c = '\n')

/-- Characters up to (excluding) the first line start where `marker`
begins, used for the lazy capture `(.*?)(?=^Action:|\Z)`. -/
def takeUntilLineMarker (marker : List Char) : List Char → Bool → List Char
  | [], _ => []
  | c :: cs, atStart =>
    if atStart && listStarts marker (c :: cs) then []
    else c :: takeUntilLineMarker marker cs (c = '\n')

/-- The `Thought:` capture of `_parse_react_response`: text after the first
line-start `Thought:` up to the next line starting with `Action:` (or the
end), stripped.  (The regex excludes the `\s*`-consumed prefix from the
group; since the group is then `.strip()`ed, stripping the whole span is
equivalent.) -/
def rawThought (content : String) : Option String :=
  match afterMarker "Thought:".data content.data true with
  | none => none
  | some rest => some (strStrip (String.mk (takeUntilLineMarker "Action:".data rest false)))

/-- The `Action:` capture: `^Action:\s*(.*)` — `\s*` may cross newlines
(greedy), after which `(.*)` captures to the end of that line; the loop
then strips the capture. -/
def rawAction (content : String) : Option String :=
  match afterMarker "Action:".data content.data true with
  | none => none
  | some rest =>
    some (strStrip (String.mk ((rest.dropWhile pyIsSpace).takeWhile (fun c => c ≠ '\n'))))

/-- Longest prefix of `cs` ending in `c`, i.e. the greedy `.*c` capture
under DOTALL. -/
def takeToLast (c : Char) (l : List Char) : Option (List Char) :=
  match (l.reverse.dropWhile (fun x => x ≠ c)) with
  | [] => none
  | r => some r.reverse

/-- `\s*(\{.*\})` applied at one candidate position (DOTALL, greedy):
skip whitespace, require an opening brace, and capture through the last
closing brace of the remaining text. -/
def actionInputFrom (cs : List Char) : Option (List Char) :=
  let rest := cs.dropWhile pyIsSpace
  if listStarts [Char.ofNat 123] rest then takeToLast (Char.ofNat 125) rest else none

/-- The `Action Input:` capture: the regex engine tries each line-start
occurrence of `Action Input:` in order until the brace group matches. -/
def rawActionInput : List Char → Bool → Option String
  | [], _ => none
  | c :: cs, atStart =>
    if atStart && listStarts "Action Input:".data (c :: cs) then
      match actionInputFrom ((c :: cs).drop 13) with
      | some cap => some (String.mk cap)
      | none => rawActionInput cs (c = '\n')
    else rawActionInput cs (c = '\n')

/-- `_parse_react_response(content) -> (thought, action, action_input)`.
An `Action:` whose stripped capture equals `none` (case-insensitively)
becomes `None`. -/
def parse_react_response (content : String) :
    Option String × Option String × Option String :=
  let thought := rawThought content
  let action :=
    match rawAction content with
    | none => none
    | some a => if strLower a == "none" then none else some a
  let action_input := rawActionInput content.data true
  (thought, action, action_input)

/-- Python truthiness of the parsed action in `if not action:` —
`None` and the empty string both take the no-action branch. -/
def actionFalsy : Option String → Bool
  | none => true
  | some a => a == ""

/-- `re.search(r"^Final Answer:\s*", content, re.MULTILINE)`. -/
def hasFinalAnswer (content : String) : Bool :=
  (afterMarker "Final Answer:".data content.data true).isSome

/-- `_extract_sources(tool_results)`. -/
def extract_sources (env : AgentEnv) (tool_results : List ToolCallRec) : List Citation :=
  (tool_results.map (fun tr =>
    if ["search_documents", "search_news", "search_filings", "search_transcripts"].contains
        tr.tool then
      match env.result_items tr.result with
      | some items =>
        (items.take 5).map (fun it =>
          { sourceType := it.md.docType.getD "unknown"
            ticker := it.md.ticker
            title :=
              match it.md.title with
              | some t => if t ≠ "" then some t else it.md.sectionName
              | none => it.md.sectionName
            score := some it.similarity_score
            text_preview :=
              match it.md.text with
              | some t => if t ≠ "" then some (String.mk (t.data.take 200)) else none
              | none => none })
      | none => []
    else [])).flatten

/-- The mutable state of one `_process_query_react_text` run. -/
structure LoopState where
  messages : List Message
  memory : List Message
  iteration : Nat
  tool_results : List ToolCallRec
  trace : List Step
deriving DecidableEq, Repr

/-- Outcome of one loop iteration: a returned envelope (with the final
agent memory) or the state for the next iteration. -/
inductive StepOut where
  | done (e : Envelope) (memory : List Message)
  | next (st : LoopState)
deriving DecidableEq, Repr

/-- One iteration of the text-mode ReAct loop, given the assistant reply of
this iteration. -/
def reactStep (cfg : AgentConfig) (env : AgentEnv) (query : String)
    (st : LoopState) (assistant_content : String) : StepOut :=
  let st := { st with messages := st.messages ++ [Message.mk "assistant" assistant_content] }
  let parsed := parse_react_response assistant_content
  let action := parsed.2.1
  let action_input := parsed.2.2
  let step : Step := ⟨parsed.1, action, action_input, none⟩
  if actionFalsy action then
    if hasFinalAnswer assistant_content then
      let answer := assistant_content
      .done
        { answer := answer
          sources := extract_sources env st.tool_results
          tool_calls := st.tool_results
          agent := some cfg.name
          error := false
          warning := none
          trace := if cfg.react_expose_trace then some (st.trace ++ [step]) else none }
        (st.memory ++ [Message.mk "user" query, Message.mk "assistant" answer])
    else
      .next { st with
                trace := st.trace ++ [step]
                messages := st.messages ++ [Message.mk "system" nudgeMessage]
                iteration := st.iteration + 1 }
  else
    let act := action.getD ""
    let parseOutcome : Except String String :=
      match action_input with
      | none => .error "Missing Action Input for the specified Action."
      | some ai =>
        match env.parseArgs ai with
        | .error e => .error ("Failed to parse Action Input JSON: " ++ e)
        | .ok parsed_args => .ok parsed_args
    match parseOutcome with
    | .error observation_text =>
      .next { st with
                messages := st.messages ++ [Message.mk "assistant" ("Observation: " ++ observation_text)]
                trace := st.trace ++ [{ step with observation := some observation_text }]
                iteration := st.iteration + 1 }
    | .ok parsed_args =>
      let result := env.execTool act parsed_args
      let observation_text := result
      .next { st with
                tool_results := st.tool_results ++ [ToolCallRec.mk act parsed_args result]
                messages := st.messages ++
                  [Message.mk "assistant" ("Observation: " ++ observation_text),
                   Message.mk "system" reactReflectionPrompt]
                trace := st.trace ++ [{ step with observation := some observation_text }]
                iteration := st.iteration + 1 }

/-- The envelope of the `# Max iterations reached` epilogue. -/
def maxIterEnvelope (cfg : AgentConfig) (env : AgentEnv) (st : LoopState)
    (final_content : String) : Envelope :=
  { answer := final_content
    sources := extract_sources env st.tool_results
    tool_calls := st.tool_results
    agent := some cfg.name
    error := false
    warning := some "Max iterations reached"
    trace := if cfg.react_expose_trace then some st.trace else none }

/-- The `while iteration < max_iterations` loop of
`_process_query_react_text`, with the fuel equal to the remaining
iteration budget, followed by the forced-final-answer epilogue. -/
def reactLoop (cfg : AgentConfig) (env : AgentEnv) (query : String) :
    Nat → LoopState → Envelope × List Message
  | 0, st =>
    let msgs := st.messages ++ [Message.mk "system" maxIterForcePrompt]
    match env.llm msgs with
    | .error _ =>
      let lastAssistant := (msgs.reverse.find? (fun m => m.role == "assistant")).map
        (fun m => m.content)
      let final_content :=
        match lastAssistant with
        | some c =>
          if c == "" then "Max iterations reached; unable to produce final answer." else c
        | none => "Max iterations reached; unable to produce final answer."
      (maxIterEnvelope cfg env st final_content, st.memory)
    | .ok c => (maxIterEnvelope cfg env st c, st.memory)
  | fuel + 1, st =>
    match env.llm st.messages with
    | .error e =>
      ({ answer := e
         sources := []
         tool_calls := st.tool_results
         agent := none
         error := true
         warning := none
         trace := if cfg.react_expose_trace then some st.trace else none }, st.memory)
    | .ok assistant_content =>
      match reactStep cfg env query st assistant_content with
      | .done e m => (e, m)
      | .next st' => reactLoop cfg env query fuel st'

/-- Context dictionary handed to `process_query` (only the fields the text
loop reads). -/
structure AgentContext where
  ticker : Option String
  contextJson : String
deriving DecidableEq, Repr

/-- The user message, with the ticker emphasis and serialized context
appended when a context is given. -/
def buildUserMessage (query : String) (context : Option AgentContext) : String :=
  match context with
  | none => query
  | some ctx =>
    (match ctx.ticker with
     | some t =>
       if t ≠ "" then
         query ++ "\n\nIMPORTANT: The ticker symbol is " ++ t ++
           ". Use ticker=" ++ String.mk [apos] ++ t ++ String.mk [apos] ++
           " in relevant tools."
       else query
     | none => query) ++ "\n\nAdditional Context: " ++ ctx.contextJson

/-- The prompt assembled before the loop: the three system messages, the
last 10 memory messages (`self.memory[-10:]`), and the user message. -/
def initialMessages (cfg : AgentConfig) (memory : List Message) (query : String)
    (context : Option AgentContext) : List Message :=
  [⟨"system", cfg.system_prompt⟩,
   ⟨"system", reactSystemGuidance⟩,
   ⟨"system", reactFormatPrompt⟩] ++
  memory.drop (memory.length - 10) ++
  [⟨"user", buildUserMessage query context⟩]

/-- `_process_query_react_text(query, context, max_iterations)`, returning
the response envelope and the agent memory after the call. -/
def process_query_react_text (cfg : AgentConfig) (env : AgentEnv) (query : String)
    (context : Option AgentContext) (memory : List Message) (max_iterations : Nat) :
    Envelope × List Message :=
  reactLoop cfg env query max_iterations
    { messages := initialMessages cfg memory query context
      memory := memory
      iteration := 0
      tool_results := []
      trace := [] }

/-- Replay a sequence of queries through one agent, threading the memory. -/
def runQueries (cfg : AgentConfig) (env : AgentEnv) (queries : List String)
    (memory : List Message) : List Message :=
  queries.foldl (fun mem q => (process_query_react_text cfg env q none mem 5).2) memory


/-! ### Concrete instances used by witnesses and counterexamples -/

/-- Metadata of an AAPL news document. -/
def mdAAPLNews : Meta := ⟨some "AAPL", some "news", none, none, none⟩

/-- Metadata of an MSFT document of another kind. -/
def mdMSFTOther : Meta := ⟨some "MSFT", some "other", none, none, none⟩

/-- A three-document store (dimension 1) whose single news document is
farther from the origin than both non-news documents. -/
def store_c10 : FinancialVectorStore :=
  { dimension := 1
    vectors := [[0], [1], [4]]
    metadata := [mdMSFTOther, mdMSFTOther, mdAAPLNews]
    doc_type_map := [("other", [(0, 2)]), ("news", [(2, 3)])] }

/-- A two-document store (dimension 1) with one AAPL and one MSFT
document. -/
def store_pair : FinancialVectorStore :=
  { dimension := 1
    vectors := [[0], [1]]
    metadata := [mdMSFTOther, mdAAPLNews]
    doc_type_map := [("other", [(0, 1)]), ("news", [(1, 2)])] }

/-- The query of the ticker-resolution test, with the apostrophe assembled
from its character code. -/
def qC7 : String := "What is AAPL" ++ String.mk [apos] ++ "s Q4 EPS guidance?"

/-- The terminating model reply of the ReAct-parser test. -/
def replyFinalDone : String := "Thought: x\nAction: None\nFinal Answer: done"

/-- The abbreviated model reply with no final answer. -/
def replyActionNone : String := "Thought: x\nAction: None"

/-- A concrete agent configuration. -/
def cfgEx : AgentConfig :=
  ⟨"financial_agent", "You are a financial analysis assistant.", true⟩

/-- An environment whose model always replies with `replyFinalDone`. -/
def envFinalDone : AgentEnv :=
  { llm := fun _ => .ok replyFinalDone
    execTool := fun _ _ => ""
    parseArgs := fun a => .ok a
    result_items := fun _ => none }

/-- The loop state at the start of a fresh query. -/
def stEx : LoopState :=
  { messages := initialMessages cfgEx [] "q" none
    memory := []
    iteration := 0
    tool_results := []
    trace := [] }

/-- A two-call `add_documents` workload. -/
def opsEx : List AddOp :=
  [⟨[[0], [1]], [mdMSFTOther, mdMSFTOther], "other"⟩,
   ⟨[[4]], [mdAAPLNews], "news"⟩]

/-- Two news documents of dimension 2. -/
def newsDocsEx : List CorpusDoc := [⟨[1, 0], mdAAPLNews⟩, ⟨[0, 1], mdMSFTOther⟩]

/-- One transcript document of dimension 2. -/
def transcriptDocsEx : List CorpusDoc :=
  [⟨[0, 2], ⟨some "AAPL", some "transcript", none, none, none⟩⟩]

/-- A corpus with two news documents, one filing and one transcript
(dimension 2), and no other sources. -/
def envCorpusEx : CorpusEnv :=
  { news := some newsDocsEx
    news_insights := none
    filings := some [⟨[1, 1], ⟨some "AAPL", some "filing", none, none, none⟩⟩]
    filings_insights := none
    transcripts := some transcriptDocsEx
    transcripts_qa := none
    transcripts_guidance := none }


/-! ## Theorems -/

theorem ratAdd_eq (a b : ℚ) : ratAdd a b = a + b := by
  have ha : ((a.den : ℚ)) ≠ 0 := by exact_mod_cast a.den_ne_zero
  have hb : ((b.den : ℚ)) ≠ 0 := by exact_mod_cast b.den_ne_zero
  have h1 : a = (a.num : ℚ) / (a.den : ℚ) := (Rat.num_div_den a).symm
  have h2 : b = (b.num : ℚ) / (b.den : ℚ) := (Rat.num_div_den b).symm
  rw [ratAdd, Rat.divInt_eq_div]
  push_cast
  conv_rhs => rw [h1, h2]
  rw [div_add_div _ _ ha hb]
  ring_nf

theorem ratSub_eq (a b : ℚ) : ratSub a b = a - b := by
  have ha : ((a.den : ℚ)) ≠ 0 := by exact_mod_cast a.den_ne_zero
  have hb : ((b.den : ℚ)) ≠ 0 := by exact_mod_cast b.den_ne_zero
  have h1 : a = (a.num : ℚ) / (a.den : ℚ) := (Rat.num_div_den a).symm
  have h2 : b = (b.num : ℚ) / (b.den : ℚ) := (Rat.num_div_den b).symm
  rw [ratSub, Rat.divInt_eq_div]
  push_cast
  conv_rhs => rw [h1, h2]
  rw [div_sub_div _ _ ha hb]
  ring_nf

theorem ratMul_eq (a b : ℚ) : ratMul a b = a * b := by
  have h1 : a = (a.num : ℚ) / (a.den : ℚ) := (Rat.num_div_den a).symm
  have h2 : b = (b.num : ℚ) / (b.den : ℚ) := (Rat.num_div_den b).symm
  rw [ratMul, Rat.divInt_eq_div]
  push_cast
  conv_rhs => rw [h1, h2]
  rw [div_mul_div_comm]

theorem ratDiv_eq (a b : ℚ) : ratDiv a b = a / b := by
  rcases eq_or_ne b 0 with hb0 | hb0
  · subst hb0
    simp [ratDiv]
  · have ha : ((a.den : ℚ)) ≠ 0 := by exact_mod_cast a.den_ne_zero
    have hb : ((b.den : ℚ)) ≠ 0 := by exact_mod_cast b.den_ne_zero
    have hbn : ((b.num : ℚ)) ≠ 0 := by
      exact_mod_cast Rat.num_ne_zero.mpr hb0
    have h1 : a = (a.num : ℚ) / (a.den : ℚ) := (Rat.num_div_den a).symm
    have h2 : b = (b.num : ℚ) / (b.den : ℚ) := (Rat.num_div_den b).symm
    rw [ratDiv, Rat.divInt_eq_div]
    push_cast
    conv_rhs => rw [h1, h2]
    field_simp




/-! ### C7: ticker resolution of the guidance query -/

/-- C7: `parse_intent("What is AAPL's Q4 EPS guidance?")` with no ticker
hint resolves the ticker `AAPL` — the candidate extraction never matches
`Q4` (a digit borders the `Q`) and `EPS`, though extracted, is on the
stoplist and in any case comes after `AAPL` — and the keyword `guidance`
sets `needs_transcripts`. -/
theorem parse_intent_aapl_guidance :
    (parse_intent qC7 none).ticker = some "AAPL" ∧
    (parse_intent qC7 none).needs_transcripts = true ∧
    (parse_intent qC7 none).raw_ticker_candidates = ["AAPL", "EPS"] ∧
    tickerStopList.contains "EPS" = true := by
  decide

/-! ### C8: persist/load round trip -/

/-- Loading what `save` wrote restores the store exactly. -/
theorem load_save (s : FinancialVectorStore) : load (save s) = s := by
  cases s
  rfl

/-- C8: `save` followed by `load` yields a store whose `search` agrees with
the original store's `search` on every query vector, `k` and filter
combination. -/
theorem save_load_roundtrip_search (s : FinancialVectorStore) (q : List ℚ)
    (k : Nat) (doc_type : Option String) (ticker : Option String)
    (min_score : Option ℚ) :
    search (load (save s)) q k doc_type ticker min_score =
      search s q k doc_type ticker min_score := by
  rw [load_save]

/-! ### C10: the kind filter is applied after over-fetching -/

/-- C10: `store_c10` holds at least `k = 1` news documents, yet a news
search with `k = 1` returns fewer than one result: the two nearest
candidates (the over-fetched `2*k`) are both non-news, and the kind filter
eliminates them without ever reaching the news document. -/
theorem search_kind_filter_underfetches :
    1 ≤ docsOfKind store_c10 "news" ∧
    (search store_c10 [0] 1 (some "news") none none).length < 1 := by
  decide

/-! ### C3: there is no arity check in `add_documents` -/

/-- The behaviour of `add_documents` on any non-degenerate batch of
matching dimension: it succeeds and appends all vectors and all metadata
entries — the lengths of the two lists are never compared. -/
theorem add_documents_ok (s : FinancialVectorStore) (e : List (List ℚ))
    (md : List Meta) (k : String)
    (hne : ¬ ((e.map (fun v => v.length)).sum = 0))
    (hdim : ∀ v ∈ e, v.length = s.dimension) :
    add_documents s e md k =
      .ok { s with
              vectors := s.vectors ++ e
              metadata := s.metadata ++ md
              doc_type_map :=
                dictSet s.doc_type_map k
                  (dictGetD s.doc_type_map k [] ++
                    [(s.vectors.length, s.vectors.length + e.length)]) } := by
  have hany : (e.any (fun v => v.length ≠ s.dimension)) = false := by
    simp only [List.any_eq_false, decide_eq_true_eq]
    intro v hv
    simp [hdim v hv]
  unfold add_documents
  rw [if_neg hne, hany]
  simp [List.length_append]

/-- C3 counterexample: a call with two embedding vectors and a single
metadata entry does not fail — it appends both vectors and the lone
metadata entry. -/
theorem add_documents_arity_mismatch_accepted :
    (([[0], [1]] : List (List ℚ)).length ≠ ([mdAAPLNews] : List Meta).length) ∧
    add_documents (emptyStore 1) [[0], [1]] [mdAAPLNews] "news" =
      .ok { dimension := 1
            vectors := [[0], [1]]
            metadata := [mdAAPLNews]
            doc_type_map := [("news", [(0, 2)])] } := by
  refine ⟨by decide, ?_⟩
  rfl

/-- C3 (amended): `add_documents` performs no arity check.  Whenever the
batch is non-degenerate and of the store dimension the call succeeds and
appends every vector and every metadata entry, even when the two counts
differ. -/
theorem add_documents_no_arity_check (s : FinancialVectorStore)
    (e : List (List ℚ)) (md : List Meta) (k : String)
    (hne : ¬ ((e.map (fun v => v.length)).sum = 0))
    (hdim : ∀ v ∈ e, v.length = s.dimension) :
    add_documents s e md k =
      .ok { s with
              vectors := s.vectors ++ e
              metadata := s.metadata ++ md
              doc_type_map :=
                dictSet s.doc_type_map k
                  (dictGetD s.doc_type_map k [] ++
                    [(s.vectors.length, s.vectors.length + e.length)]) } :=
  add_documents_ok s e md k hne hdim

/-- Witness for the amended C3 at an arity-mismatched input. -/
theorem add_documents_no_arity_check_witness :
    ((¬ ((([[0], [1]] : List (List ℚ)).map (fun v => v.length)).sum = 0)) ∧
      (∀ v ∈ ([[0], [1]] : List (List ℚ)), v.length = (emptyStore 1).dimension)) ∧
    add_documents (emptyStore 1) [[0], [1]] [mdAAPLNews] "news" =
      .ok { emptyStore 1 with
              vectors := (emptyStore 1).vectors ++ [[0], [1]]
              metadata := (emptyStore 1).metadata ++ [mdAAPLNews]
              doc_type_map :=
                dictSet (emptyStore 1).doc_type_map "news"
                  (dictGetD (emptyStore 1).doc_type_map "news" [] ++
                    [((emptyStore 1).vectors.length,
                      (emptyStore 1).vectors.length +
                        ([[0], [1]] : List (List ℚ)).length)]) } :=
  ⟨⟨by decide, by decide⟩,
    add_documents_no_arity_check (emptyStore 1) [[0], [1]] [mdAAPLNews] "news"
      (by decide) (by decide)⟩


/-! ### C2: partial rebuild keeps the combined index complete -/

theorem dictGet_dictSet_self {α : Type} (m : List (String × α)) (k : String) (v : α) :
    dictGet (dictSet m k v) k = some v := by
  induction m with
  | nil => simp [dictSet, dictGet]
  | cons p rest ih =>
    obtain ⟨k', v'⟩ := p
    by_cases h : k' = k
    · subst h
      simp [dictSet, dictGet]
    · simp [dictSet, dictGet, h, ih]

theorem dictGet_dictSet_ne {α : Type} (m : List (String × α)) (k k' : String) (v : α)
    (h : k' ≠ k) : dictGet (dictSet m k v) k' = dictGet m k' := by
  have hne : ¬ (k = k') := fun hkk => h hkk.symm
  induction m with
  | nil =>
    simp only [dictSet, dictGet]
    rw [if_neg hne]
  | cons p rest ih =>
    obtain ⟨k'', v'⟩ := p
    by_cases hk : k'' = k
    · subst hk
      simp only [dictSet, if_pos rfl, dictGet]
      rw [if_neg hne, if_neg hne]
    · simp only [dictSet, if_neg hk, dictGet]
      by_cases hk2 : k'' = k'
      · rw [if_pos hk2, if_pos hk2]
      · rw [if_neg hk2, if_neg hk2]
        exact ih

theorem doc_type_count_mergeKind_self (store : FinancialVectorStore) (kind : String)
    (kstore : FinancialVectorStore) :
    doc_type_count (mergeKind store kind kstore) kind =
      if 0 < kstore.vectors.length then kstore.vectors.length
      else doc_type_count store kind := by
  unfold mergeKind
  by_cases h : 0 < kstore.vectors.length
  · rw [if_pos h, if_pos h]
    unfold doc_type_count
    simp [dictGetD, dictGet_dictSet_self]
  · rw [if_neg h, if_neg h]

theorem doc_type_count_mergeKind_ne (store : FinancialVectorStore) (kind : String)
    (kstore : FinancialVectorStore) (kind' : String) (h : kind' ≠ kind) :
    doc_type_count (mergeKind store kind kstore) kind' = doc_type_count store kind' := by
  unfold mergeKind
  by_cases hk : 0 < kstore.vectors.length
  · rw [if_pos hk]
    unfold doc_type_count
    simp [dictGetD, dictGet_dictSet_ne _ _ _ _ h]
  · rw [if_neg hk]

/-- `build_kind_index` with no ticker scoping indexes exactly the source
documents of a well-formed corpus. -/
theorem build_kind_index_ntotal (kind : String) (docs : List CorpusDoc)
    (h : wellFormedDocs docs) :
    (build_kind_index kind none docs).vectors.length = docs.length := by
  unfold build_kind_index filterByTicker
  simp only [strTruthy, Bool.false_eq_true, if_false]
  match docs, h with
  | [], _ => simp [emptyStore]
  | d0 :: rest, h =>
    have hhead : (d0 :: rest).head?.elim 0 (fun d => d.embedding.length)
        = d0.embedding.length := rfl
    have hd0 := h d0 (by simp)
    have hne : ¬ ((((d0 :: rest).map (fun d => d.embedding)).map
        (fun v => v.length)).sum = 0) := by
      have : 0 < d0.embedding.length := List.length_pos.mpr hd0.1
      simp only [List.map_cons, List.sum_cons]
      omega
    have hdim : ∀ v ∈ (d0 :: rest).map (fun d => d.embedding),
        v.length = (emptyStore (d0.embedding.length)).dimension := by
      intro v hv
      obtain ⟨d, hd, rfl⟩ := List.mem_map.mp hv
      exact (h d hd).2.trans hhead
    rw [if_neg (by simp)]
    simp only [hhead]
    rw [add_documents_ok _ _ _ _ hne hdim]
    simp [emptyStore]

/-- The step function of the `build_combined_index` fold. -/
theorem doc_type_count_build_step_ne (ticker : Option String)
    (doc_types : Option (List String)) (store : FinancialVectorStore)
    (p : String × Option (List CorpusDoc)) (kind' : String) (h : kind' ≠ p.1) :
    doc_type_count
      (if (doc_types.isNone || (doc_types.getD []).contains p.1) && p.2.isSome then
        mergeKind store p.1 (build_kind_index p.1 ticker (p.2.getD []))
      else store) kind' = doc_type_count store kind' := by
  by_cases hc : ((doc_types.isNone || (doc_types.getD []).contains p.1) && p.2.isSome) = true
  · rw [if_pos hc]
    exact doc_type_count_mergeKind_ne _ _ _ _ h
  · rw [if_neg hc]

theorem doc_type_count_build_fold_ne (ticker : Option String)
    (doc_types : Option (List String)) (kind' : String) :
    ∀ (entries : List (String × Option (List CorpusDoc))) (store : FinancialVectorStore),
      (∀ p ∈ entries, kind' ≠ p.1) →
      doc_type_count
        (entries.foldl (fun store p =>
          if (doc_types.isNone || (doc_types.getD []).contains p.1) && p.2.isSome then
            mergeKind store p.1 (build_kind_index p.1 ticker (p.2.getD []))
          else store) store) kind' = doc_type_count store kind'
  | [], store, _ => rfl
  | p :: rest, store, hne => by
    rw [List.foldl_cons]
    rw [doc_type_count_build_fold_ne ticker doc_types kind' rest _
      (fun q hq => hne q (List.mem_cons_of_mem p hq))]
    exact doc_type_count_build_step_ne ticker doc_types store p kind'
      (hne p (List.mem_cons_self p rest))

/-- Folding the combined-index builder over `pre ++ (kind, some docs) :: post`
(with `doc_types = None`, and `kind` appearing nowhere else) yields exactly
the per-kind index size as the count for `kind`. -/
theorem doc_type_count_build_fold_at (ticker : Option String) (kind : String)
    (docs : List CorpusDoc) (pre post : List (String × Option (List CorpusDoc)))
    (store : FinancialVectorStore)
    (hpre : ∀ p ∈ pre, kind ≠ p.1) (hpost : ∀ p ∈ post, kind ≠ p.1)
    (h0 : doc_type_count store kind = 0) :
    doc_type_count
      ((pre ++ (kind, some docs) :: post).foldl (fun store p =>
        if ((none : Option (List String)).isNone ||
            ((none : Option (List String)).getD []).contains p.1) && p.2.isSome then
          mergeKind store p.1 (build_kind_index p.1 ticker (p.2.getD []))
        else store) store) kind
      = (build_kind_index kind ticker docs).vectors.length := by
  rw [List.foldl_append, List.foldl_cons]
  rw [doc_type_count_build_fold_ne _ _ _ post _ hpost]
  have hcond : (((none : Option (List String)).isNone ||
      ((none : Option (List String)).getD []).contains ((kind, some docs) :
        String × Option (List CorpusDoc)).1) &&
      ((kind, some docs) : String × Option (List CorpusDoc)).2.isSome) = true := by
    simp
  rw [if_pos hcond]
  rw [doc_type_count_mergeKind_self]
  rw [doc_type_count_build_fold_ne _ _ _ pre _ hpre, h0]
  by_cases h : 0 < (build_kind_index kind ticker (((kind, some docs) :
      String × Option (List CorpusDoc)).2.getD [])).vectors.length
  · rw [if_pos h]
    rfl
  · rw [if_neg h]
    simp only [Option.getD_some] at h ⊢
    omega

/-- C2: `rebuild_indices` with a subset of kinds rebuilds the requested
per-kind indices but then rebuilds the combined index with
`doc_types=None`, i.e. from all available sources: the resulting combined
store coincides with a full combined build, so the news and transcript
result counts are unchanged — and (for well-formed sources) equal to the
full news/transcript corpus sizes, whatever subset was requested. -/
theorem rebuild_indices_frame (env : CorpusEnv) (kinds : List String) :
    (rebuild_indices env none (some kinds)).combined = build_combined_index env none none ∧
    doc_type_count (rebuild_indices env none (some kinds)).combined "news" =
      doc_type_count (build_combined_index env none none) "news" ∧
    doc_type_count (rebuild_indices env none (some kinds)).combined "transcript" =
      doc_type_count (build_combined_index env none none) "transcript" ∧
    (∀ nd, env.news = some nd → wellFormedDocs nd →
      doc_type_count (rebuild_indices env none (some kinds)).combined "news" = nd.length) ∧
    (∀ td, env.transcripts = some td → wellFormedDocs td →
      doc_type_count (rebuild_indices env none (some kinds)).combined "transcript" =
        td.length) := by
  refine ⟨rfl, rfl, rfl, ?_, ?_⟩
  · intro nd hnd hwf
    show doc_type_count (build_combined_index env none none) "news" = nd.length
    unfold build_combined_index kindSources
    rw [hnd]
    have := doc_type_count_build_fold_at none "news" nd []
      [("news_insight", env.news_insights), ("filing", env.filings),
       ("filing_insight", env.filings_insights), ("transcript", env.transcripts),
       ("transcript_qa", env.transcripts_qa),
       ("transcript_guidance", env.transcripts_guidance)]
      (emptyStore 384) (by intro p hp; simp at hp) (by
        intro p hp
        simp only [List.mem_cons, List.not_mem_nil, or_false] at hp
        rcases hp with rfl | rfl | rfl | rfl | rfl | rfl <;> simp) rfl
    rw [List.nil_append] at this
    rw [this]
    exact build_kind_index_ntotal _ _ hwf
  · intro td htd hwf
    show doc_type_count (build_combined_index env none none) "transcript" = td.length
    unfold build_combined_index kindSources
    rw [htd]
    have := doc_type_count_build_fold_at none "transcript" td
      [("news", env.news), ("news_insight", env.news_insights),
       ("filing", env.filings), ("filing_insight", env.filings_insights)]
      [("transcript_qa", env.transcripts_qa),
       ("transcript_guidance", env.transcripts_guidance)]
      (emptyStore 384) (by
        intro p hp
        simp only [List.mem_cons, List.not_mem_nil, or_false] at hp
        rcases hp with rfl | rfl | rfl | rfl <;> simp) (by
        intro p hp
        simp only [List.mem_cons, List.not_mem_nil, or_false] at hp
        rcases hp with rfl | rfl <;> simp) rfl
    simp only [List.cons_append, List.nil_append] at this
    rw [this]
    exact build_kind_index_ntotal _ _ hwf

/-- Witness for C2: rebuilding only `{"filing"}` over `envCorpusEx` leaves
the combined news count equal to the full news corpus size. -/
theorem rebuild_indices_frame_witness :
    (envCorpusEx.news = some newsDocsEx ∧ wellFormedDocs newsDocsEx) ∧
    doc_type_count (rebuild_indices envCorpusEx none (some ["filing"])).combined "news" =
      newsDocsEx.length :=
  ⟨⟨rfl, by decide⟩,
    (rebuild_indices_frame envCorpusEx ["filing"]).2.2.2.1 newsDocsEx rfl (by decide)⟩


/-! ### C4: the range-map invariant -/

theorem flatten_dictSet_append {α : Type} (m : List (String × List α)) (k : String)
    (x : α) :
    (((dictSet m k (dictGetD m k [] ++ [x])).map (fun p => p.2)).flatten).Perm
      (x :: ((m.map (fun p => p.2)).flatten)) := by
  induction m with
  | nil =>
    simp [dictSet, dictGetD, dictGet]
  | cons p rest ih =>
    obtain ⟨k', v⟩ := p
    by_cases h : k' = k
    · subst h
      have h1 : dictSet ((k', v) :: rest) k' (dictGetD ((k', v) :: rest) k' [] ++ [x])
          = (k', v ++ [x]) :: rest := by
        simp [dictSet, dictGetD, dictGet]
      rw [h1]
      simp only [List.map_cons, List.flatten_cons]
      rw [List.append_assoc, List.singleton_append]
      exact List.perm_middle
    · have hD : dictGetD ((k', v) :: rest) k ([] : List α) = dictGetD rest k [] := by
        simp [dictGetD, dictGet, h]
      simp only [hD, dictSet, if_neg h, List.map_cons, List.flatten_cons]
      exact (List.Perm.append_left v ih).trans List.perm_middle

theorem rangeInvariant_empty (d : Nat) : rangeInvariant (emptyStore d) := by
  refine ⟨?_, ?_, ?_⟩ <;> simp [allRanges, emptyStore]

theorem rangeInvariant_push (s s' : FinancialVectorStore) (m : Nat) (hm : 0 < m)
    (hlen : s'.vectors.length = s.vectors.length + m)
    (hperm : (allRanges s').Perm
      ((s.vectors.length, s.vectors.length + m) :: allRanges s))
    (h : rangeInvariant s) : rangeInvariant s' := by
  obtain ⟨hb, hp, hc⟩ := h
  have hmem : ∀ r, r ∈ allRanges s' ↔
      r = (s.vectors.length, s.vectors.length + m) ∨ r ∈ allRanges s := by
    intro r
    rw [hperm.mem_iff, List.mem_cons]
  have hsymm : Symmetric rangesDisjoint := by
    intro x y hxy
    rcases hxy with h1 | h1
    · exact Or.inr h1
    · exact Or.inl h1
  refine ⟨?_, ?_, ?_⟩
  · intro r hr
    rcases (hmem r).mp hr with rfl | hr'
    · simp [hlen]
    · have := hb r hr'
      rw [hlen]
      omega
  · refine (List.Perm.pairwise_iff (fun {x y} hxy => hsymm hxy) hperm).mpr ?_
    refine List.Pairwise.cons ?_ hp
    intro r hr
    exact Or.inr (hb r hr)
  · intro i
    rw [hlen]
    constructor
    · intro hi
      by_cases hit : i < s.vectors.length
      · obtain ⟨r, hr, hr2⟩ := (hc i).mp hit
        exact ⟨r, (hmem r).mpr (Or.inr hr), hr2⟩
      · refine ⟨(s.vectors.length, s.vectors.length + m),
          (hmem _).mpr (Or.inl rfl), ?_, ?_⟩ <;> omega
    · rintro ⟨r, hr, hr1, hr2⟩
      rcases (hmem r).mp hr with rfl | hr'
      · simp only at hr1 hr2
        omega
      · have h1 := hb r hr'
        have h2 := (hc i).mpr ⟨r, hr', hr1, hr2⟩
        omega

theorem addOrKeep_rangeInvariant (s : FinancialVectorStore) (op : AddOp)
    (h : rangeInvariant s) : rangeInvariant (addOrKeep s op) := by
  by_cases h0 : ((op.embeddings.map (fun v => v.length)).sum = 0)
  · unfold addOrKeep add_documents
    rw [if_pos h0]
    exact h
  · by_cases h1 : (op.embeddings.any (fun v => v.length ≠ s.dimension)) = true
    · unfold addOrKeep add_documents
      rw [if_neg h0, if_pos h1]
      exact h
    · have hdim : ∀ v ∈ op.embeddings, v.length = s.dimension := by
        intro v hv
        by_contra hne
        exact h1 (List.any_eq_true.mpr ⟨v, hv, by simpa using hne⟩)
      have hm : 0 < op.embeddings.length := by
        rcases he : op.embeddings with _ | ⟨v, rest⟩
        · rw [he] at h0
          simp at h0
        · simp
      unfold addOrKeep
      rw [add_documents_ok s op.embeddings op.metadata op.doc_type h0 hdim]
      apply rangeInvariant_push s _ op.embeddings.length hm
      · simp
      · simpa [allRanges] using
          flatten_dictSet_append s.doc_type_map op.doc_type
            (s.vectors.length, s.vectors.length + op.embeddings.length)
      · exact h

theorem applyAdds_rangeInvariant (ops : List AddOp) :
    ∀ (s : FinancialVectorStore), rangeInvariant s →
      rangeInvariant (applyAdds s ops) := by
  induction ops with
  | nil =>
    intro s h
    exact h
  | cons op rest ih =>
    intro s h
    exact ih _ (addOrKeep_rangeInvariant s op h)

theorem mergeKind_rangeInvariant (store : FinancialVectorStore) (kind : String)
    (kstore : FinancialVectorStore) (h : rangeInvariant store)
    (hfresh : dictGet store.doc_type_map kind = none) :
    rangeInvariant (mergeKind store kind kstore) := by
  unfold mergeKind
  by_cases hk : 0 < kstore.vectors.length
  · rw [if_pos hk]
    apply rangeInvariant_push store _ kstore.vectors.length hk
    · simp
    · have hD : dictGetD store.doc_type_map kind ([] : List (Nat × Nat)) = [] := by
        simp [dictGetD, hfresh]
      have hpm := flatten_dictSet_append store.doc_type_map kind
        (store.vectors.length, store.vectors.length + kstore.vectors.length)
      rw [hD] at hpm
      simpa [allRanges] using hpm
    · exact h
  · rw [if_neg hk]
    exact h

theorem build_fold_rangeInvariant (ticker : Option String)
    (doc_types : Option (List String)) :
    ∀ (entries : List (String × Option (List CorpusDoc)))
      (store : FinancialVectorStore),
      rangeInvariant store →
      (∀ p ∈ entries, dictGet store.doc_type_map p.1 = none) →
      ((entries.map (fun p => p.1)).Nodup) →
      rangeInvariant (entries.foldl (fun store p =>
        if (doc_types.isNone || (doc_types.getD []).contains p.1) && p.2.isSome then
          mergeKind store p.1 (build_kind_index p.1 ticker (p.2.getD []))
        else store) store)
  | [], store, h, _, _ => h
  | p :: rest, store, h, hfresh, hnodup => by
    rw [List.foldl_cons]
    rw [List.map_cons] at hnodup
    have hnd := List.nodup_cons.mp hnodup
    by_cases hc : ((doc_types.isNone || (doc_types.getD []).contains p.1) &&
        p.2.isSome) = true
    · rw [if_pos hc]
      apply build_fold_rangeInvariant ticker doc_types rest _
      · exact mergeKind_rangeInvariant _ _ _ h (hfresh p (List.mem_cons_self p rest))
      · intro q hq
        have hqne : q.1 ≠ p.1 := by
          intro he
          exact hnd.1 (he ▸ List.mem_map_of_mem (fun r => r.1) hq)
        unfold mergeKind
        by_cases hk : 0 < (build_kind_index p.1 ticker (p.2.getD [])).vectors.length
        · rw [if_pos hk]
          simpa [dictGet_dictSet_ne _ _ _ _ hqne] using
            hfresh q (List.mem_cons_of_mem _ hq)
        · rw [if_neg hk]
          exact hfresh q (List.mem_cons_of_mem _ hq)
      · exact hnd.2
    · rw [if_neg hc]
      exact build_fold_rangeInvariant ticker doc_types rest store h
        (fun q hq => hfresh q (List.mem_cons_of_mem _ hq)) hnd.2

/-- C4: after any workload of successful `add_documents` calls (non-empty
batches of the store dimension with equal-length metadata) the kind→range
map of the store has pairwise non-overlapping ranges whose union covers
exactly `[0, ntotal)`, and `build_combined_index` likewise always produces
a store satisfying this invariant. -/
theorem range_map_invariant (dim : Nat) (ops : List AddOp)
    (_hops : ∀ op ∈ ops, op.ok dim) :
    rangeInvariant (applyAdds (emptyStore dim) ops) ∧
    (∀ (env : CorpusEnv) (ticker : Option String)
      (doc_types : Option (List String)),
      rangeInvariant (build_combined_index env ticker doc_types)) := by
  constructor
  · exact applyAdds_rangeInvariant ops (emptyStore dim) (rangeInvariant_empty dim)
  · intro env ticker doc_types
    unfold build_combined_index
    apply build_fold_rangeInvariant ticker doc_types (kindSources env) (emptyStore 384)
      (rangeInvariant_empty 384)
      (fun p _ => rfl)
      (by simp only [kindSources, List.map_cons, List.map_nil]; decide)

/-- Witness for C4 at a concrete two-call workload. -/
theorem range_map_invariant_witness :
    (∀ op ∈ opsEx, op.ok 1) ∧
    (rangeInvariant (applyAdds (emptyStore 1) opsEx) ∧
     (∀ (env : CorpusEnv) (ticker : Option String)
       (doc_types : Option (List String)),
       rangeInvariant (build_combined_index env ticker doc_types))) :=
  ⟨by decide, range_map_invariant 1 opsEx (by decide)⟩


/-! ### C1: ticker-priority search ranking -/

theorem knn_length (s : FinancialVectorStore) (q : List ℚ) (m : Nat) :
    (knn s q m).length = min m s.vectors.length := by
  unfold knn
  rw [List.length_take, (List.perm_insertionSort distLE _).length_eq,
    List.length_map, List.enum_length]

theorem searchCandidates_length_some (s : FinancialVectorStore) (q : List ℚ)
    (k : Nat) (t : String) (ht : t ≠ "") :
    (searchCandidates s q k (some t)).length = min (3 * k) s.vectors.length := by
  have htt : strTruthy (some t) = true := by simp [strTruthy, ht]
  unfold searchCandidates searchKOf
  rw [htt, if_pos rfl, knn_length]
  omega

theorem searchCandidates_length_none (s : FinancialVectorStore) (q : List ℚ)
    (k : Nat) :
    (searchCandidates s q k none).length = min (2 * k) s.vectors.length := by
  unfold searchCandidates searchKOf
  rw [show strTruthy none = false from rfl, if_neg (by simp), knn_length]
  omega

/-- `search` on a non-empty store with a (truthy) ticker filter is the
`k`-truncation of the sorted ticker-matching results followed by the
sorted non-matching results. -/
theorem search_eq_ranked (s : FinancialVectorStore) (q : List ℚ) (k : Nat)
    (doc_type : Option String) (min_score : Option ℚ) (t : String)
    (hz : ¬ s.vectors.length = 0) (ht : t ≠ "") :
    search s q k doc_type (some t) min_score =
      (List.insertionSort simGE
          ((searchFiltered s q k doc_type (some t) min_score).filter
            (fun r => matchesTicker t r.md)) ++
        List.insertionSort simGE
          ((searchFiltered s q k doc_type (some t) min_score).filter
            (fun r => ! matchesTicker t r.md))).take k := by
  have htt : strTruthy (some t) = true := by simp [strTruthy, ht]
  unfold search
  rw [if_neg hz]
  simp only [htt, if_true, List.partition_eq_filter_filter, Option.getD_some,
    Function.comp_def]

/-- The generic shape of the ticker-priority output: it decomposes into a
matching prefix and a non-matching suffix, each group is sorted by
descending similarity, and the length is the `k`-truncation of the number
of surviving candidates. -/
theorem ranked_take_spec (p : SearchResult → Bool) (F : List SearchResult) (k : Nat) :
    (∃ a b,
      (List.insertionSort simGE (F.filter p) ++
        List.insertionSort simGE (F.filter (fun x => ! p x))).take k = a ++ b ∧
      (∀ r ∈ a, p r = true) ∧ (∀ r ∈ b, p r = false)) ∧
    (((List.insertionSort simGE (F.filter p) ++
        List.insertionSort simGE (F.filter (fun x => ! p x))).take k).filter p).Sorted
      simGE ∧
    (((List.insertionSort simGE (F.filter p) ++
        List.insertionSort simGE (F.filter (fun x => ! p x))).take k).filter
      (fun x => ! p x)).Sorted simGE ∧
    ((List.insertionSort simGE (F.filter p) ++
        List.insertionSort simGE (F.filter (fun x => ! p x))).take k).length =
      min k F.length := by
  have hsortA : (List.insertionSort simGE (F.filter p)).Sorted simGE :=
    List.sorted_insertionSort simGE _
  have hsortB : (List.insertionSort simGE (F.filter (fun x => ! p x))).Sorted simGE :=
    List.sorted_insertionSort simGE _
  have hmemA : ∀ r ∈ List.insertionSort simGE (F.filter p), p r = true := by
    intro r hr
    exact List.of_mem_filter ((List.perm_insertionSort simGE _).mem_iff.mp hr)
  have hmemB : ∀ r ∈ List.insertionSort simGE (F.filter (fun x => ! p x)),
      p r = false := by
    intro r hr
    have h3 := List.of_mem_filter ((List.perm_insertionSort simGE _).mem_iff.mp hr)
    simpa using h3
  have htake : (List.insertionSort simGE (F.filter p) ++
      List.insertionSort simGE (F.filter (fun x => ! p x))).take k =
      (List.insertionSort simGE (F.filter p)).take k ++
      (List.insertionSort simGE (F.filter (fun x => ! p x))).take
        (k - (List.insertionSort simGE (F.filter p)).length) :=
    List.take_append_eq_append_take
  refine ⟨?_, ?_, ?_, ?_⟩
  · refine ⟨_, _, htake, ?_, ?_⟩
    · intro r hr
      exact hmemA r ((List.take_sublist _ _).subset hr)
    · intro r hr
      exact hmemB r ((List.take_sublist _ _).subset hr)
  · rw [htake, List.filter_append]
    have e1 : List.filter p ((List.insertionSort simGE (F.filter p)).take k) =
        (List.insertionSort simGE (F.filter p)).take k :=
      List.filter_eq_self.mpr (fun r hr => hmemA r ((List.take_sublist _ _).subset hr))
    have e2 : List.filter p
        ((List.insertionSort simGE (F.filter (fun x => ! p x))).take
          (k - (List.insertionSort simGE (F.filter p)).length)) = [] :=
      List.filter_eq_nil_iff.mpr (fun r hr => by
        simp [hmemB r ((List.take_sublist _ _).subset hr)])
    rw [e1, e2, List.append_nil]
    exact List.Pairwise.sublist (List.take_sublist _ _) hsortA
  · rw [htake, List.filter_append]
    have e1 : List.filter (fun x => ! p x)
        ((List.insertionSort simGE (F.filter p)).take k) = [] :=
      List.filter_eq_nil_iff.mpr (fun r hr => by
        simp [hmemA r ((List.take_sublist _ _).subset hr)])
    have e2 : List.filter (fun x => ! p x)
        ((List.insertionSort simGE (F.filter (fun x => ! p x))).take
          (k - (List.insertionSort simGE (F.filter p)).length)) =
        (List.insertionSort simGE (F.filter (fun x => ! p x))).take
          (k - (List.insertionSort simGE (F.filter p)).length) :=
      List.filter_eq_self.mpr (fun r hr => by
        simp [hmemB r ((List.take_sublist _ _).subset hr)])
    rw [e1, e2, List.nil_append]
    exact List.Pairwise.sublist (List.take_sublist _ _) hsortB
  · rw [List.length_take, List.length_append]
    congr 1
    rw [(List.perm_insertionSort simGE (F.filter p)).length_eq,
        (List.perm_insertionSort simGE (F.filter (fun x => ! p x))).length_eq]
    have := (List.filter_append_perm p F).length_eq
    simpa [List.length_append] using this

/-- C1: with a ticker filter `search` examines the `min(3k, ntotal)`
nearest candidates (`min(2k, ntotal)` without one); in the returned list
every result whose ticker matches the filter (case-insensitively) ranks
before every non-matching result, each of the two groups is sorted by
descending similarity score, and the concatenation is truncated to `k`. -/
theorem search_ticker_priority (s : FinancialVectorStore) (q : List ℚ) (k : Nat)
    (doc_type : Option String) (min_score : Option ℚ) (t : String)
    (hk : 0 < k) (ht : t ≠ "") :
    (searchCandidates s q k (some t)).length = min (3 * k) s.vectors.length ∧
    (searchCandidates s q k none).length = min (2 * k) s.vectors.length ∧
    (∃ a b, search s q k doc_type (some t) min_score = a ++ b ∧
      (∀ r ∈ a, matchesTicker t r.md = true) ∧
      (∀ r ∈ b, matchesTicker t r.md = false)) ∧
    ((search s q k doc_type (some t) min_score).filter
      (fun r => matchesTicker t r.md)).Sorted simGE ∧
    ((search s q k doc_type (some t) min_score).filter
      (fun r => ! matchesTicker t r.md)).Sorted simGE ∧
    (search s q k doc_type (some t) min_score).length =
      min k (searchFiltered s q k doc_type (some t) min_score).length := by
  by_cases hz : s.vectors.length = 0
  · have hs : search s q k doc_type (some t) min_score = [] := by
      unfold search
      rw [if_pos hz]
    have hcand : (searchCandidates s q k (some t)).length = 0 := by
      rw [searchCandidates_length_some s q k t ht, hz]
      omega
    have hf : (searchFiltered s q k doc_type (some t) min_score).length = 0 := by
      unfold searchFiltered
      have hle := List.length_filterMap_le
        (candidateResult s doc_type min_score) (searchCandidates s q k (some t))
      omega
    refine ⟨searchCandidates_length_some s q k t ht,
      searchCandidates_length_none s q k, ⟨[], [], by simp [hs], by simp, by simp⟩,
      by simp [hs], by simp [hs], ?_⟩
    rw [hs, hf]
    simp
  · have hr := search_eq_ranked s q k doc_type min_score t hz ht
    have hspec := ranked_take_spec (fun r => matchesTicker t r.md)
      (searchFiltered s q k doc_type (some t) min_score) k
    refine ⟨searchCandidates_length_some s q k t ht,
      searchCandidates_length_none s q k, ?_, ?_, ?_, ?_⟩
    · rw [hr]
      exact hspec.1
    · rw [hr]
      exact hspec.2.1
    · rw [hr]
      exact hspec.2.2.1
    · rw [hr]
      exact hspec.2.2.2

/-- Witness for C1 on a concrete mixed store. -/
theorem search_ticker_priority_witness :
    (0 < 1 ∧ "AAPL" ≠ "") ∧
    ((searchCandidates store_pair [0] 1 (some "AAPL")).length =
        min (3 * 1) store_pair.vectors.length ∧
      (searchCandidates store_pair [0] 1 none).length =
        min (2 * 1) store_pair.vectors.length ∧
      (∃ a b, search store_pair [0] 1 none (some "AAPL") none = a ++ b ∧
        (∀ r ∈ a, matchesTicker "AAPL" r.md = true) ∧
        (∀ r ∈ b, matchesTicker "AAPL" r.md = false)) ∧
      ((search store_pair [0] 1 none (some "AAPL") none).filter
        (fun r => matchesTicker "AAPL" r.md)).Sorted simGE ∧
      ((search store_pair [0] 1 none (some "AAPL") none).filter
        (fun r => ! matchesTicker "AAPL" r.md)).Sorted simGE ∧
      (search store_pair [0] 1 none (some "AAPL") none).length =
        min 1 (searchFiltered store_pair [0] 1 none (some "AAPL") none).length) :=
  ⟨⟨by decide, by decide⟩,
    search_ticker_priority store_pair [0] 1 none none "AAPL" (by decide) (by decide)⟩


/-! ### C5, C6, C9: the text-mode ReAct loop -/

theorem reactLoop_ok_step (cfg : AgentConfig) (env : AgentEnv) (query : String)
    (fuel : Nat) (st : LoopState) (content : String)
    (hllm : env.llm st.messages = .ok content) :
    reactLoop cfg env query (fuel + 1) st =
      match reactStep cfg env query st content with
      | .done e m => (e, m)
      | .next st' => reactLoop cfg env query fuel st' := by
  simp only [reactLoop]
  rw [hllm]

theorem reactLoop_done (cfg : AgentConfig) (env : AgentEnv) (query : String)
    (fuel : Nat) (st : LoopState) (content : String) (e : Envelope)
    (mem : List Message)
    (hllm : env.llm st.messages = .ok content)
    (hstep : reactStep cfg env query st content = .done e mem) :
    reactLoop cfg env query (fuel + 1) st = (e, mem) := by
  rw [reactLoop_ok_step cfg env query fuel st content hllm, hstep]

/-- A no-action reply that does carry a `Final Answer:` marker terminates
the loop with the whole reply as the answer and appends the turn to the
memory. -/
theorem reactStep_final (cfg : AgentConfig) (env : AgentEnv) (query : String)
    (st : LoopState) (content : String)
    (hact : actionFalsy (parse_react_response content).2.1 = true)
    (hfin : hasFinalAnswer content = true) :
    reactStep cfg env query st content = .done
      { answer := content
        sources := extract_sources env st.tool_results
        tool_calls := st.tool_results
        agent := some cfg.name
        error := false
        warning := none
        trace := if cfg.react_expose_trace then
            some (st.trace ++ [⟨(parse_react_response content).1,
              (parse_react_response content).2.1,
              (parse_react_response content).2.2, none⟩])
          else none }
      (st.memory ++ [Message.mk "user" query, Message.mk "assistant" content]) := by
  unfold reactStep
  simp only [hact, hfin, if_true]

/-- C6: a model reply whose parsed action is falsy (`Action: None`,
`Action:` with empty capture, or no `Action:` line at all) and which has no
line starting with `Final Answer:` never terminates the loop: the
iteration appends the assistant reply and the nudge system message and
continues with the next iteration. -/
theorem react_none_without_final_answer_nudges (cfg : AgentConfig) (env : AgentEnv)
    (query : String) (st : LoopState) (content : String)
    (hact : actionFalsy (parse_react_response content).2.1 = true)
    (hfin : hasFinalAnswer content = false) :
    reactStep cfg env query st content = .next
      { messages := st.messages ++ [Message.mk "assistant" content,
          Message.mk "system" nudgeMessage]
        memory := st.memory
        iteration := st.iteration + 1
        tool_results := st.tool_results
        trace := st.trace ++ [⟨(parse_react_response content).1,
          (parse_react_response content).2.1,
          (parse_react_response content).2.2, none⟩] } := by
  unfold reactStep
  simp only [hact, hfin, if_true, Bool.false_eq_true, if_false, List.append_assoc,
    List.cons_append, List.nil_append]

/-- Witness for C6 at the abbreviated reply `"Thought: x\nAction: None"`. -/
theorem react_none_without_final_answer_nudges_witness :
    (actionFalsy (parse_react_response replyActionNone).2.1 = true ∧
      hasFinalAnswer replyActionNone = false) ∧
    reactStep cfgEx envFinalDone "q" stEx replyActionNone = .next
      { messages := stEx.messages ++ [Message.mk "assistant" replyActionNone,
          Message.mk "system" nudgeMessage]
        memory := stEx.memory
        iteration := stEx.iteration + 1
        tool_results := stEx.tool_results
        trace := stEx.trace ++ [⟨(parse_react_response replyActionNone).1,
          (parse_react_response replyActionNone).2.1,
          (parse_react_response replyActionNone).2.2, none⟩] } :=
  ⟨⟨by decide, by decide⟩,
    react_none_without_final_answer_nudges cfgEx envFinalDone "q" stEx replyActionNone
      (by decide) (by decide)⟩

/-- C5 counterexample: on the reply
`"Thought: x\nAction: None\nFinal Answer: done"` the loop does terminate
successfully in that iteration, but the envelope's `answer` field is the
whole reply — it is not the extracted string `"done"`. -/
theorem react_final_answer_not_extracted :
    (process_query_react_text cfgEx envFinalDone "q" none [] 5).1.error = false ∧
    (process_query_react_text cfgEx envFinalDone "q" none [] 5).1.warning = none ∧
    (process_query_react_text cfgEx envFinalDone "q" none [] 5).1.answer =
      replyFinalDone ∧
    (process_query_react_text cfgEx envFinalDone "q" none [] 5).1.answer ≠ "done" := by
  refine ⟨by decide, by decide, by decide, by decide⟩

/-- C5 (amended): when the model reply in the text-mode ReAct loop is
exactly `"Thought: x\nAction: None\nFinal Answer: done"`, the loop
terminates successfully in that iteration (no error, no warning, no tool
calls) and the envelope's `answer` field equals the entire reply, which
contains the marker `Final Answer: done`. -/
theorem react_final_answer_terminates (cfg : AgentConfig) (env : AgentEnv)
    (query : String) (context : Option AgentContext) (memory : List Message)
    (m : Nat)
    (hllm : env.llm (initialMessages cfg memory query context) = .ok replyFinalDone) :
    (process_query_react_text cfg env query context memory (m + 1)).1.answer =
      replyFinalDone ∧
    (process_query_react_text cfg env query context memory (m + 1)).1.error = false ∧
    (process_query_react_text cfg env query context memory (m + 1)).1.warning = none ∧
    (process_query_react_text cfg env query context memory (m + 1)).1.tool_calls = [] ∧
    (process_query_react_text cfg env query context memory (m + 1)).2 =
      memory ++ [Message.mk "user" query, Message.mk "assistant" replyFinalDone] := by
  have hact : actionFalsy (parse_react_response replyFinalDone).2.1 = true := by decide
  have hfin : hasFinalAnswer replyFinalDone = true := by decide
  have hdone := reactStep_final cfg env query
    { messages := initialMessages cfg memory query context, memory := memory,
      iteration := 0, tool_results := [], trace := [] } replyFinalDone hact hfin
  have hrun := reactLoop_done cfg env query m
    { messages := initialMessages cfg memory query context, memory := memory,
      iteration := 0, tool_results := [], trace := [] } replyFinalDone _ _ hllm hdone
  unfold process_query_react_text
  rw [hrun]
  exact ⟨rfl, rfl, rfl, rfl, rfl⟩

/-- Witness for the amended C5. -/
theorem react_final_answer_terminates_witness :
    (envFinalDone.llm (initialMessages cfgEx [] "q" none) = .ok replyFinalDone) ∧
    ((process_query_react_text cfgEx envFinalDone "q" none [] (4 + 1)).1.answer =
        replyFinalDone ∧
      (process_query_react_text cfgEx envFinalDone "q" none [] (4 + 1)).1.error = false ∧
      (process_query_react_text cfgEx envFinalDone "q" none [] (4 + 1)).1.warning =
        none ∧
      (process_query_react_text cfgEx envFinalDone "q" none [] (4 + 1)).1.tool_calls =
        [] ∧
      (process_query_react_text cfgEx envFinalDone "q" none [] (4 + 1)).2 =
        [] ++ [Message.mk "user" "q", Message.mk "assistant" replyFinalDone]) :=
  ⟨rfl, react_final_answer_terminates cfgEx envFinalDone "q" none [] 4 rfl⟩

/-- C9 counterexample: the conversation memory keeps every turn — after six
processed queries the memory holds twelve messages, more than the claimed
bound of ten. -/
theorem memory_keeps_more_than_ten :
    (runQueries cfgEx envFinalDone ["q1", "q2", "q3", "q4", "q5", "q6"] []).length =
      12 ∧
    10 < (runQueries cfgEx envFinalDone ["q1", "q2", "q3", "q4", "q5", "q6"] []).length := by
  refine ⟨by decide, by decide⟩

/-- C9 (amended): the agent memory is append-only and unbounded: each
successfully answered query appends the user/assistant pair and nothing is
ever evicted; the 10-message bound applies only to the prompt — the
messages sent to the model include just the last 10 memory entries. -/
theorem memory_append_only_prompt_bounded (cfg : AgentConfig) (env : AgentEnv)
    (query : String) (memory : List Message) (m : Nat) (reply : String)
    (hllm : env.llm (initialMessages cfg memory query none) = .ok reply)
    (hact : actionFalsy (parse_react_response reply).2.1 = true)
    (hfin : hasFinalAnswer reply = true) :
    (process_query_react_text cfg env query none memory (m + 1)).2 =
      memory ++ [Message.mk "user" query, Message.mk "assistant" reply] ∧
    (initialMessages cfg memory query none).length = 3 + min 10 memory.length + 1 := by
  constructor
  · have hdone := reactStep_final cfg env query
      { messages := initialMessages cfg memory query none, memory := memory,
        iteration := 0, tool_results := [], trace := [] } reply hact hfin
    have hrun := reactLoop_done cfg env query m
      { messages := initialMessages cfg memory query none, memory := memory,
        iteration := 0, tool_results := [], trace := [] } reply _ _ hllm hdone
    unfold process_query_react_text
    rw [hrun]
  · unfold initialMessages
    simp only [List.length_append, List.length_cons, List.length_nil, List.length_drop]
    omega

/-- Witness for the amended C9. -/
theorem memory_append_only_prompt_bounded_witness :
    (envFinalDone.llm (initialMessages cfgEx [] "q" none) = .ok replyFinalDone ∧
      actionFalsy (parse_react_response replyFinalDone).2.1 = true ∧
      hasFinalAnswer replyFinalDone = true) ∧
    ((process_query_react_text cfgEx envFinalDone "q" none [] (0 + 1)).2 =
        [] ++ [Message.mk "user" "q", Message.mk "assistant" replyFinalDone] ∧
      (initialMessages cfgEx [] "q" none).length =
        3 + min 10 ([] : List Message).length + 1) :=
  ⟨⟨rfl, by decide, by decide⟩,
    memory_append_only_prompt_bounded cfgEx envFinalDone "q" [] 0 replyFinalDone rfl
      (by decide) (by decide)⟩

end VectorRag



